import Mathlib

/-!
Verification of the RedCross Doppler cross-correlation code
(src/redcross/cross_correlation.py and src/redcross/align.py) against its
natural-language specification.  Numeric arrays are modelled over the exact
rationals; NaN entries of a wavelength axis are modelled as an Option value.
-/

namespace RedCross

/-- Mean of a list of rationals, as np.mean on a 1-D array.  On the empty
list numpy returns NaN; we return 0 and every claim below only evaluates the
mean of nonempty data. -/
def listMean (l : List ℚ) : ℚ := l.sum / l.length

/-- Population variance, np.var, which is also the square of np.std.
0 on the empty list (numpy: NaN, never hit by the claims). -/
def listVar (l : List ℚ) : ℚ := listMean (l.map (fun x => (x - listMean l) ^ 2))

/-- Insert into a sorted list, helper of the sort used for the median. -/
def insertQ (x : ℚ) : List ℚ → List ℚ
  | [] => [x]
  | y :: ys => if x ≤ y then x :: y :: ys else y :: insertQ x ys

/-- Insertion sort on rationals, used to model the sorting inside np.median. -/
def sortQ : List ℚ → List ℚ
  | [] => []
  | x :: xs => insertQ x (sortQ xs)

/-- Model of np.median: middle element of the sorted data for odd length,
average of the two middle elements for even length; 0 on the empty list
(numpy: NaN, never hit by the claims). -/
def listMedian (l : List ℚ) : ℚ :=
  let s := sortQ l
  let n := l.length
  if n = 0 then 0
  else if n % 2 = 1 then s.getD (n / 2) 0
  else (s.getD (n / 2 - 1) 0 + s.getD (n / 2) 0) / 2

/-- Dot product of two equally long 1-D arrays (np.dot). -/
def dotQ (a b : List ℚ) : ℚ := ((a.zip b).map (fun p => p.1 * p.2)).sum

/-- Mean over every entry of a 2-D array, as the axis-free np.mean. -/
def mean2D (xss : List (List ℚ)) : ℚ := listMean xss.flatten

/-- Model of np.arange(a, b, s) for a positive step s: the values a + k*s
for 0 ≤ k < ceil((b-a)/s).  The code only ever calls it with a positive
step (the trial-velocity resolution dRV). -/
def arange (a b s : ℚ) : List ℚ :=
  (List.range (Int.toNat ⌈(b - a) / s⌉)).map (fun k => a + k * s)

/-- Python `x or default` for an optional float argument: both None and 0.0
are falsy and select the default. -/
def pyOr (x : Option ℚ) (d : ℚ) : ℚ :=
  match x with
  | none => d
  | some v => if v = 0 then d else v

/-- The grid/threshold state produced by KpV.__init__. -/
structure KpvConfig where
  dRV : ℚ
  kpVec : List ℚ
  vrestVec : List ℚ
  bkg : ℚ
deriving DecidableEq

/-- Embedding of KpV.__init__ (cross_correlation.py lines 209-220): the
trial-velocity resolution defaults to the CCF resolution via Python `or`,
the Kp grid spans [Kp - kp_radius, Kp + kp_radius) at step dRV, the Vrest
grid spans [-vrest_max, vrest_max] inclusive at step dRV, and the
background threshold defaults to 0.60 * vrest_max via Python `or`. -/
def kpvInit (ccfdRV planetKp : ℚ) (deltaRV : Option ℚ)
    (kp_radius vrest_max : ℚ) (bkg : Option ℚ) : KpvConfig :=
  let dRV := pyOr deltaRV ccfdRV
  { dRV := dRV
    kpVec := arange (planetKp - kp_radius) (planetKp + kp_radius) dRV
    vrestVec := arange (-vrest_max) (vrest_max + dRV) dRV
    bkg := pyOr bkg (vrest_max * (60 / 100)) }

/-- C10: KpV.__init__ tests its optional numeric parameters for truthiness,
not for None: passing bkg = 0 yields the same state as passing no bkg at
all, with the default threshold 0.60 * vrest_max, and passing deltaRV = 0
yields the same state as passing no deltaRV, with the CCF resolution; a
caller can therefore never select a zero value for these parameters. -/
theorem c10_truthy_defaults (ccfdRV planetKp kp_radius vrest_max : ℚ)
    (deltaRV : Option ℚ) (bkg : Option ℚ) :
    kpvInit ccfdRV planetKp deltaRV kp_radius vrest_max (some 0)
      = kpvInit ccfdRV planetKp deltaRV kp_radius vrest_max none
    ∧ (kpvInit ccfdRV planetKp deltaRV kp_radius vrest_max (some 0)).bkg
      = vrest_max * (60 / 100)
    ∧ kpvInit ccfdRV planetKp (some 0) kp_radius vrest_max bkg
      = kpvInit ccfdRV planetKp none kp_radius vrest_max bkg
    ∧ (kpvInit ccfdRV planetKp (some 0) kp_radius vrest_max bkg).dRV = ccfdRV := by
  refine ⟨?_, ?_, ?_, ?_⟩ <;> simp [kpvInit, pyOr]

/-! ## Cross-correlation engine (CCF.cross_correlation, lines 75-111) -/

/-- Speed of light constant from cross_correlation.py line 11: 2.998e5 km/s. -/
def lightSpeed : ℚ := 299800

/-- A single-order datacube as consumed by CCF.cross_correlation: a shared
wavelength axis (NaN entries modelled as none), per-frame flux rows and
per-frame flux-error rows. -/
structure Dco where
  wlt : List (Option ℚ)
  flux : List (List ℚ)
  flux_err : List (List ℚ)
deriving DecidableEq

/-- A 1-D template: wavelength axis plus flux axis. -/
structure Template where
  wlt : List ℚ
  flux : List ℚ
deriving DecidableEq

/-- The usable wavelength axis wlt[~nans]: wavelengths whose entry is not
NaN. -/
def waveOf (d : Dco) : List ℚ := d.wlt.filterMap id

/-- Keep, inside one row, the entries sitting at non-NaN wavelengths:
models the column selection flux[:, ~nans]. -/
def keepValid (w : List (Option ℚ)) (row : List ℚ) : List ℚ :=
  (w.zip row).filterMap (fun p => if p.1.isSome then some p.2 else none)

/-- The usable flux flux[:, ~nans] of every frame. -/
def validFlux (d : Dco) : List (List ℚ) := d.flux.map (keepValid d.wlt)

/-- The usable flux-error flux_err[:, ~nans] of every frame. -/
def validErr (d : Dco) : List (List ℚ) := d.flux_err.map (keepValid d.wlt)

/-- The flux entering the dot product, f = flux - np.mean(flux)
(line 81): the scalar mean of the whole 2-D usable-flux array is
subtracted from every entry. -/
def centeredFlux (d : Dco) : List (List ℚ) :=
  (validFlux d).map (fun row => row.map (fun x => x - mean2D (validFlux d)))

/-- Second definition, written from the words of the spec sentence
"Mean-center the usable flux per frame": each frame is centered by its own
mean.  Used only to compare the spec reading with the source. -/
def perFrameCenteredFlux (d : Dco) : List (List ℚ) :=
  (validFlux d).map (fun row => row.map (fun x => x - listMean row))

/-- Smallest element of a list, seeded with a default (np.min; the code
never takes the min of an empty wavelength axis). -/
def listMin (l : List ℚ) : ℚ := l.foldl min (l.headD 0)

/-- Largest element of a list, seeded with a default (np.max). -/
def listMax (l : List ℚ) : ℚ := l.foldl max (l.headD 0)

/-- Modelled from the spec: Template.crop lives in the missing datacube
module.  Spec 4.3: "The template is cropped to the covered wavelength
range with a fractional edge margin (default 0.40) to guarantee all
Doppler-shifted evaluation points stay within the template's support."
We keep the template points lying within the data range widened on each
side by eps times the range span. -/
def Template.crop (t : Template) (a b eps : ℚ) : Template :=
  let lo := a - eps * (b - a)
  let hi := b + eps * (b - a)
  let kept := (t.wlt.zip t.flux).filter (fun p => lo ≤ p.1 ∧ p.1 ≤ hi)
  { wlt := kept.map Prod.fst, flux := kept.map Prod.snd }

/-- The cropped template with its flux mean-centered, lines 83-84:
temp = template.crop(min wave, max wave, eps=0.40); temp.flux -= mean. -/
def croppedCentered (t : Template) (d : Dco) : Template :=
  let tc := t.crop (listMin (waveOf d)) (listMax (waveOf d)) (40 / 100)
  { wlt := tc.wlt, flux := tc.flux.map (fun x => x - listMean tc.flux) }

/-- Piecewise-linear interpolation of the tabulated points (xs, ys) at x,
as scipy.interpolate.interp1d: the first knot interval whose right end is
at or past x is used.  scipy raises outside the support and with fewer
than two knots; the code guarantees coverage via the template crop, and we
return 0 in those never-exercised cases. -/
def linInterp : List ℚ → List ℚ → ℚ → ℚ
  | x0 :: x1 :: xs, y0 :: y1 :: ys, x =>
      if x ≤ x1 then y0 + (y1 - y0) * (x - x0) / (x1 - x0)
      else linInterp (x1 :: xs) (y1 :: ys) x
  | _, _, _ => 0

/-- The Doppler factors beta = 1 - rv/c of line 88. -/
def betas (rv : List ℚ) : List ℚ := rv.map (fun v => 1 - v / lightSpeed)

/-- The 2-D Doppler-shifted template matrix g of line 99 (linear-interpolation
branch): row k evaluates the cropped, mean-centered template at wave * beta-k. -/
def gMatrix (t : Template) (wave : List ℚ) (rv : List ℚ) : List (List ℚ) :=
  (betas rv).map (fun b => wave.map (fun w => linInterp t.wlt t.flux (w * b)))

/-- Noise normalization mode of CCF.cross_correlation. -/
inductive NoiseMode
  | flux_err
  | var
  | ones
deriving DecidableEq

/-- Transpose of a 2-D array, used to take per-column statistics. -/
def cols : List (List ℚ) → List (List ℚ)
  | [] => []
  | [r] => r.map (fun x => [x])
  | r :: rs => (r.zip (cols rs)).map (fun p => p.1 :: p.2)

/-- The flux rows divided by the noise term, f/noise2 of lines 103-111:
per-column division by mean squared flux error for flux_err, per-column
division by the column variance of f for var, and f unchanged for ones
(noise2 = 1). -/
def weightedFlux (d : Dco) (mode : NoiseMode) : List (List ℚ) :=
  let f := centeredFlux d
  match mode with
  | NoiseMode.flux_err =>
      let noise2 := (cols (validErr d)).map (fun c => listMean (c.map (fun x => x ^ 2)))
      f.map (fun row => (row.zip noise2).map (fun p => p.1 / p.2))
  | NoiseMode.var =>
      let noise2 := (cols f).map listVar
      f.map (fun row => (row.zip noise2).map (fun p => p.1 / p.2))
  | NoiseMode.ones => f

/-- Embedding of CCF.cross_correlation (lines 75-111): NaN columns are
dropped, the usable flux is centered by its global mean, the template is
cropped to the covered range and centered, Doppler-projected onto the
trial-velocity grid, and the map is the dot product np.dot(f/noise2, g.T):
entry (i, k) correlates frame i with the template shifted by rv[k]. -/
def crossCorrelation (d : Dco) (t : Template) (rv : List ℚ) (mode : NoiseMode) :
    List (List ℚ) :=
  let g := gMatrix (croppedCentered t d) (waveOf d) rv
  (weightedFlux d mode).map (fun frow => g.map (fun grow => dotQ frow grow))

/-- C4: for noise mode 'ones' the CCF map is identical across any two runs
whose inputs differ only in the supplied flux-error array: the flux-error
rows are never read in that mode. -/
theorem c4_ones_ignores_flux_err (d1 d2 : Dco) (t : Template) (rv : List ℚ)
    (hw : d1.wlt = d2.wlt) (hf : d1.flux = d2.flux) :
    crossCorrelation d1 t rv NoiseMode.ones
      = crossCorrelation d2 t rv NoiseMode.ones := by
  simp only [crossCorrelation, weightedFlux, centeredFlux, validFlux, waveOf,
    croppedCentered, mean2D, hw, hf]

/-- Closed instance of c4_ones_ignores_flux_err: the two datacubes agree on
wavelengths and flux, differ in flux errors, and yield the same map. -/
theorem c4_ones_ignores_flux_err_witness :
    (Dco.mk [some 1, none, some 2] [[1, 2, 3], [4, 5, 6]] [[1, 1, 1], [1, 1, 1]]).wlt
      = (Dco.mk [some 1, none, some 2] [[1, 2, 3], [4, 5, 6]] [[7, 8, 9], [3, 3, 3]]).wlt
    ∧ (Dco.mk [some 1, none, some 2] [[1, 2, 3], [4, 5, 6]] [[1, 1, 1], [1, 1, 1]]).flux
      = (Dco.mk [some 1, none, some 2] [[1, 2, 3], [4, 5, 6]] [[7, 8, 9], [3, 3, 3]]).flux
    ∧ crossCorrelation
        (Dco.mk [some 1, none, some 2] [[1, 2, 3], [4, 5, 6]] [[1, 1, 1], [1, 1, 1]])
        (Template.mk [0, 3] [1, 5]) [0] NoiseMode.ones
      = crossCorrelation
        (Dco.mk [some 1, none, some 2] [[1, 2, 3], [4, 5, 6]] [[7, 8, 9], [3, 3, 3]])
        (Template.mk [0, 3] [1, 5]) [0] NoiseMode.ones :=
  ⟨rfl, rfl,
    c4_ones_ignores_flux_err
      (Dco.mk [some 1, none, some 2] [[1, 2, 3], [4, 5, 6]] [[1, 1, 1], [1, 1, 1]])
      (Dco.mk [some 1, none, some 2] [[1, 2, 3], [4, 5, 6]] [[7, 8, 9], [3, 3, 3]])
      (Template.mk [0, 3] [1, 5]) [0] rfl rfl⟩

/-- C1 counterexample: on a datacube whose two frames have different means
(frame 0 all zeros, frame 1 all twos) the flux entering the dot product is
not the per-frame-centered flux: the code subtracts the global mean 1 from
every entry, while per-frame centering would yield all zeros. -/
theorem c1_counterexample :
    centeredFlux (Dco.mk [some 1, some 2] [[0, 0], [2, 2]] [[0, 0], [0, 0]])
      ≠ perFrameCenteredFlux (Dco.mk [some 1, some 2] [[0, 0], [2, 2]] [[0, 0], [0, 0]]) := by
  norm_num [centeredFlux, perFrameCenteredFlux, validFlux, keepValid, mean2D, listMean,
    List.filterMap_cons]

/-- C1 amended: every entry of the flux handed to the correlation dot
product is that frame's usable flux entry minus the one global mean of the
whole usable-flux array, the same constant for all frames, not the mean of
the entry's own frame. -/
theorem c1_global_mean_centering (d : Dco) (i j : ℕ)
    (hi : i < (centeredFlux d).length)
    (hj : j < ((centeredFlux d).getD i []).length) :
    ((centeredFlux d).getD i []).getD j 0
      = ((validFlux d).getD i []).getD j 0 - mean2D (validFlux d) := by
  have hi' : i < (validFlux d).length := by simpa [centeredFlux] using hi
  have h1 : (centeredFlux d).getD i []
      = ((validFlux d).get ⟨i, hi'⟩).map (fun x => x - mean2D (validFlux d)) := by
    rw [List.getD_eq_getElem _ _ hi]
    simp [centeredFlux]
  have h2 : (validFlux d).getD i [] = (validFlux d).get ⟨i, hi'⟩ :=
    List.getD_eq_getElem _ _ hi'
  rw [h1, h2]
  have hj' : j < ((validFlux d).get ⟨i, hi'⟩).length := by
    rw [h1] at hj; simpa using hj
  rw [List.getD_eq_getElem _ _ (by simpa using hj'), List.getD_eq_getElem _ _ hj']
  simp

/-- Closed instance of c1_global_mean_centering at frame 1, pixel 0 of the
counterexample datacube: the entry is 2 - 1 = 1, the global mean 1 having
been subtracted. -/
theorem c1_global_mean_centering_witness :
    1 < (centeredFlux (Dco.mk [some 1, some 2] [[0, 0], [2, 2]] [[0, 0], [0, 0]])).length
    ∧ 0 < ((centeredFlux (Dco.mk [some 1, some 2] [[0, 0], [2, 2]] [[0, 0], [0, 0]])).getD 1 []).length
    ∧ ((centeredFlux (Dco.mk [some 1, some 2] [[0, 0], [2, 2]] [[0, 0], [0, 0]])).getD 1 []).getD 0 0
      = ((validFlux (Dco.mk [some 1, some 2] [[0, 0], [2, 2]] [[0, 0], [0, 0]])).getD 1 []).getD 0 0
        - mean2D (validFlux (Dco.mk [some 1, some 2] [[0, 0], [2, 2]] [[0, 0], [0, 0]])) :=
  ⟨by decide, by decide,
    c1_global_mean_centering
      (Dco.mk [some 1, some 2] [[0, 0], [2, 2]] [[0, 0], [0, 0]]) 1 0
      (by decide) (by decide)⟩

/-- Linear interpolation evaluated exactly at the i-th knot of a strictly
increasing table with at least two knots returns the i-th tabulated value. -/
theorem linInterp_knot :
    ∀ (xs ys : List ℚ), xs.Sorted (· < ·) → xs.length = ys.length →
      2 ≤ xs.length → ∀ (i : ℕ) (hi : i < xs.length),
      linInterp xs ys (xs.get ⟨i, hi⟩) = ys.getD i 0
  | x0 :: x1 :: xr, y0 :: y1 :: yr, hs, hlen, h2, i, hi => by
    have hx01 : x0 < x1 := List.rel_of_sorted_cons hs _ (by simp)
    match i with
    | 0 =>
        simp only [List.get, linInterp, if_pos (le_of_lt hx01), List.getD]
        simp
    | 1 =>
        simp only [List.get, linInterp, if_pos (le_refl x1), List.getD]
        have hne : x1 - x0 ≠ 0 := sub_ne_zero.mpr (ne_of_gt hx01)
        field_simp
    | (n + 2) =>
        have hi' : n + 1 < (x1 :: xr).length := by
          simpa using hi
        have hmem : (x1 :: xr).get ⟨n + 1, hi'⟩ ∈ xr := by
          simp [List.get]
        have hgt : x1 < (x1 :: xr).get ⟨n + 1, hi'⟩ :=
          List.rel_of_sorted_cons hs.tail _ hmem
        have hstep : (x0 :: x1 :: xr).get ⟨n + 2, hi⟩ = (x1 :: xr).get ⟨n + 1, hi'⟩ := rfl
        rw [hstep, linInterp, if_neg (not_le.mpr hgt)]
        have := linInterp_knot (x1 :: xr) (y1 :: yr) hs.tail
          (by simpa using hlen) (by simp only [List.length_cons] at hi ⊢; omega) (n + 1) hi'
        simpa [List.getD] using this
  | [], ys, _, _, h2, _, _ => by simp at h2
  | [x], ys, _, _, h2, _, _ => by simp at h2
  | x0 :: x1 :: xr, [], _, hlen, _, _, _ => by simp at hlen
  | x0 :: x1 :: xr, [y], _, hlen, _, _, _ => by simp at hlen

/-- C5: at trial velocity 0 the Doppler factor is beta = 1 and the
projected template row, evaluated at a usable wavelength that coincides
with a knot of the (cropped, mean-centered) template, reproduces that
knot's centered flux exactly. -/
theorem c5_zero_velocity_row (d : Dco) (t : Template) (rv : List ℚ)
    (k i j : ℕ) (hk : k < rv.length) (hk0 : rv.getD k 0 = 0)
    (hs : (croppedCentered t d).wlt.Sorted (· < ·))
    (hlen : (croppedCentered t d).wlt.length = (croppedCentered t d).flux.length)
    (h2 : 2 ≤ (croppedCentered t d).wlt.length)
    (hj : j < (waveOf d).length)
    (hi : i < (croppedCentered t d).wlt.length)
    (hw : (waveOf d).get ⟨j, hj⟩ = (croppedCentered t d).wlt.get ⟨i, hi⟩) :
    ((gMatrix (croppedCentered t d) (waveOf d) rv).getD k []).getD j 0
      = (croppedCentered t d).flux.getD i 0 := by
  have hkb : k < (betas rv).length := by simpa [betas] using hk
  have h1 : (gMatrix (croppedCentered t d) (waveOf d) rv).getD k []
      = (waveOf d).map (fun w =>
          linInterp (croppedCentered t d).wlt (croppedCentered t d).flux
            (w * (betas rv).get ⟨k, hkb⟩)) := by
    rw [List.getD_eq_getElem _ _ (by simpa [gMatrix] using hkb)]
    simp [gMatrix]
  have hb1 : (betas rv).get ⟨k, hkb⟩ = 1 := by
    have : (betas rv).get ⟨k, hkb⟩ = 1 - (rv.get ⟨k, hk⟩) / lightSpeed := by
      simp [betas]
    rw [this, List.get_eq_getElem, ← List.getD_eq_getElem rv 0 hk, hk0]
    norm_num
  rw [h1]
  rw [List.getD_eq_getElem _ _ (by simpa using hj), List.getElem_map]
  simp only [hb1, mul_one]
  have hw2 : (waveOf d)[j] = (croppedCentered t d).wlt.get ⟨i, hi⟩ := by
    rw [← hw]
    rfl
  rw [hw2]
  exact linInterp_knot _ _ hs hlen h2 i hi

/-- Closed instance of c5_zero_velocity_row: template over wavelengths
1..4, data wavelengths 2 and 3; the cropped centered template is
([2, 3], [2, -2]) and the zero-velocity row reproduces 2 at the knot 2. -/
theorem c5_zero_velocity_row_witness :
    0 < ([0] : List ℚ).length
    ∧ ([(0 : ℚ)].getD 0 0 = 0)
    ∧ (croppedCentered (Template.mk [1, 2, 3, 4] [0, 4, 0, 0])
        (Dco.mk [some 2, some 3] [[1, 1]] [[1, 1]])).wlt.Sorted (· < ·)
    ∧ ((gMatrix
          (croppedCentered (Template.mk [1, 2, 3, 4] [0, 4, 0, 0])
            (Dco.mk [some 2, some 3] [[1, 1]] [[1, 1]]))
          (waveOf (Dco.mk [some 2, some 3] [[1, 1]] [[1, 1]])) [0]).getD 0 []).getD 0 0
      = (croppedCentered (Template.mk [1, 2, 3, 4] [0, 4, 0, 0])
          (Dco.mk [some 2, some 3] [[1, 1]] [[1, 1]])).flux.getD 0 0 := by
  have hcc : croppedCentered (Template.mk [1, 2, 3, 4] [0, 4, 0, 0])
      (Dco.mk [some 2, some 3] [[1, 1]] [[1, 1]]) = Template.mk [2, 3] [2, -2] := by
    norm_num [croppedCentered, Template.crop, waveOf, listMin, listMax, listMean,
      List.filterMap_cons, List.filter_cons]
  refine ⟨by norm_num, by norm_num, by rw [hcc]; norm_num [List.sorted_cons], ?_⟩
  refine c5_zero_velocity_row (Dco.mk [some 2, some 3] [[1, 1]] [[1, 1]])
    (Template.mk [1, 2, 3, 4] [0, 4, 0, 0]) [0] 0 0 0 (by norm_num) (by norm_num)
    (by rw [hcc]; norm_num [List.sorted_cons]) (by rw [hcc]; norm_num)
    (by rw [hcc]; norm_num) (by norm_num [waveOf, List.filterMap_cons])
    (by rw [hcc]; norm_num) ?_
  have hwave : waveOf (Dco.mk [some 2, some 3] [[1, 1]] [[1, 1]]) = [2, 3] := by
    norm_num [waveOf, List.filterMap_cons]
  rw [List.get_of_eq hwave, List.get_of_eq (congrArg Template.wlt hcc)]

/-- Sum of a constant-shifted list, helper for the centering lemma. -/
theorem sum_map_sub_const (l : List ℚ) (c : ℚ) :
    (l.map (fun x => x - c)).sum = l.sum - l.length * c := by
  induction l with
  | nil => simp
  | cons x xs ih =>
      simp only [List.map_cons, List.sum_cons, ih, List.length_cons]
      push_cast
      ring

/-- Mean-centering a nonempty list yields a list of mean zero. -/
theorem listMean_center (l : List ℚ) (h : l ≠ []) :
    listMean (l.map (fun x => x - listMean l)) = 0 := by
  have hn : (l.length : ℚ) ≠ 0 := by
    simpa using h
  rw [listMean, sum_map_sub_const, List.length_map, listMean,
    mul_comm, div_mul_cancel₀ _ hn, sub_self, zero_div]

/-- C7 counterexample: for the template (wlt [0..4], flux [0,0,4,0,0]) and
data wavelengths [1/2, 2, 7/2] at trial velocity 0, the row of the
Doppler-shifted matrix handed to the dot product is [-4/5, 16/5, -4/5],
whose mean is 8/15, not zero: rows are not individually re-centered. -/
theorem c7_counterexample :
    listMean ((gMatrix
        (croppedCentered (Template.mk [0, 1, 2, 3, 4] [0, 0, 4, 0, 0])
          (Dco.mk [some (1/2), some 2, some (7/2)] [[0, 0, 0]] [[0, 0, 0]]))
        (waveOf (Dco.mk [some (1/2), some 2, some (7/2)] [[0, 0, 0]] [[0, 0, 0]]))
        [0]).getD 0 []) ≠ 0 := by
  have hcc : croppedCentered (Template.mk [0, 1, 2, 3, 4] [0, 0, 4, 0, 0])
      (Dco.mk [some (1/2), some 2, some (7/2)] [[0, 0, 0]] [[0, 0, 0]])
      = Template.mk [0, 1, 2, 3, 4] [-4/5, -4/5, 16/5, -4/5, -4/5] := by
    norm_num [croppedCentered, Template.crop, waveOf, listMin, listMax, listMean,
      List.filterMap_cons, List.filter_cons]
  rw [hcc]
  norm_num [gMatrix, betas, waveOf, List.filterMap_cons, lightSpeed, linInterp, listMean]

/-- C7 amended: only the 1-D cropped template is mean-centered before the
Doppler projection: the template flux vector fed to the row-building
interpolation has mean exactly zero, while the produced rows themselves are
not re-centered (see the counterexample). -/
theorem c7_template_mean_zero (t : Template) (d : Dco)
    (h : (croppedCentered t d).flux ≠ []) :
    listMean (croppedCentered t d).flux = 0 := by
  simp only [croppedCentered] at h ⊢
  apply listMean_center
  intro hnil
  simp [hnil] at h

/-- Closed instance of c7_template_mean_zero on the counterexample data:
its cropped template is nonempty and its centered flux has mean zero. -/
theorem c7_template_mean_zero_witness :
    (croppedCentered (Template.mk [0, 1, 2, 3, 4] [0, 0, 4, 0, 0])
      (Dco.mk [some (1/2), some 2, some (7/2)] [[0, 0, 0]] [[0, 0, 0]])).flux ≠ []
    ∧ listMean (croppedCentered (Template.mk [0, 1, 2, 3, 4] [0, 0, 4, 0, 0])
        (Dco.mk [some (1/2), some 2, some (7/2)] [[0, 0, 0]] [[0, 0, 0]])).flux = 0 :=
  have h : (croppedCentered (Template.mk [0, 1, 2, 3, 4] [0, 0, 4, 0, 0])
      (Dco.mk [some (1/2), some 2, some (7/2)] [[0, 0, 0]] [[0, 0, 0]])).flux ≠ [] := by
    norm_num [croppedCentered, Template.crop, waveOf, listMin, listMax, listMean,
      List.filterMap_cons, List.filter_cons]
    exact List.cons_ne_nil _ _
  ⟨h, c7_template_mean_zero (Template.mk [0, 1, 2, 3, 4] [0, 0, 4, 0, 0])
    (Dco.mk [some (1/2), some 2, some (7/2)] [[0, 0, 0]] [[0, 0, 0]]) h⟩

/-! ## Frame alignment (align.py, Align.clip lines 43-48 and Align.get_shift
lines 49-70) -/

/-- Error taxonomy used to express claim C9: the spec's eager
DegenerateInputError versus a failure raised inside the interpolation
library (scipy's splrep).  The repository's code defines no error class at
all; only the library failure can occur. -/
inductive AlignErr
  | degenerateInput
  | splineFailure
deriving DecidableEq

/-- Embedding of Align.clip: entries farther than sigma standard deviations
from the mean are replaced by NaN (none).  The code's condition
np.abs(f - mean) > std*sigma is taken in the equivalent squared form
(f - mean)^2 > var*sigma^2; both sides are nonnegative squares, so the
comparisons agree exactly and no square root is needed. -/
def clip (f : List ℚ) (sigma : ℚ) : List (Option ℚ) :=
  f.map (fun x => if (x - listMean f) ^ 2 > listVar f * sigma ^ 2 then none else some x)

/-- Model of scipy.interpolate.splrep: fitting the default degree-3 spline
requires strictly more points than the degree (m > k = 3); with 3 or fewer
points scipy itself raises, modelled as the library failure.  On success
the tabulated data is handed to an abstract evaluator, since the spline
numerics live in scipy, outside this repository. -/
def splrepModel (xs ys : List ℚ) : Except AlignErr (List ℚ × List ℚ) :=
  if xs.length ≤ 3 then Except.error AlignErr.splineFailure
  else Except.ok (xs, ys)

/-- The union NaN mask of align.py line 54: a pixel is bad when it is
clipped in either frame. -/
def nanMask (fc gc : List (Option ℚ)) : List Bool :=
  (fc.zip gc).map (fun p => p.1.isNone || p.2.isNone)

/-- Entries of a list surviving at the non-masked pixels, the indexing
l[~nans]. -/
def maskKeep (mask : List Bool) (l : List ℚ) : List ℚ :=
  ((mask.zip l).filter (fun p => !p.1)).map Prod.snd

/-- The pixel axis np.arange(0, nPix) of a frame. -/
def pixelsOf (f : List ℚ) : List ℚ := (List.range f.length).map (fun k => (k : ℚ))

/-- The union mask produced inside get_shift for frames 0 and j. -/
def unionMask (flux : List (List ℚ)) (j : ℕ) : List Bool :=
  nanMask (clip (flux.getD 0 []) 3) (clip (flux.getD j []) 3)

/-- Number of valid (non-sigma-clipped, in either frame) points that
get_shift hands to the spline constructor. -/
def validCount (flux : List (List ℚ)) (j : ℕ) : ℕ :=
  (maskKeep (unionMask flux j) (pixelsOf (flux.getD 0 []))).length

/-- The normalized cross-correlation coefficient Align.xcorr (lines 30-37),
parametric in the square-root routine, which is numpy's, not this
repository's. -/
def xcorrQ (sqrtQ : ℚ → ℚ) (f g : List ℚ) : ℚ :=
  (dotQ f g / f.length) / sqrtQ ((dotQ f f / f.length) * (dotQ g g / f.length))

/-- Embedding of Align.get_shift for frame j: clip both frames, drop the
union of their NaN positions, build a spline of frame j's surviving values
over the surviving pixel positions, and correlate frame 0's surviving
values against the spline evaluated at every trial shift.  The spline
evaluator and square root are parameters: they model scipy/numpy numerics
external to this repository, and no conclusion below depends on them. -/
def getShift (splineEval : List ℚ × List ℚ → ℚ → ℚ) (sqrtQ : ℚ → ℚ)
    (flux : List (List ℚ)) (RVt : List ℚ) (j : ℕ) : Except AlignErr (List ℚ) :=
  match splrepModel (maskKeep (unionMask flux j) (pixelsOf (flux.getD 0 [])))
      (maskKeep (unionMask flux j) (flux.getD j [])) with
  | Except.error e => Except.error e
  | Except.ok cs =>
      Except.ok (RVt.map (fun s =>
        xcorrQ sqrtQ (maskKeep (unionMask flux j) (flux.getD 0 []))
          ((maskKeep (unionMask flux j) (pixelsOf (flux.getD 0 []))).map
            (fun p => splineEval cs (p + s)))))

/-- C9 counterexample: frames of three points (nothing clipped, three valid
points remaining, fewer than 4) make get_shift fail with the library's
spline failure, not with an eagerly signalled DegenerateInputError: no such
eager validation exists in align.py. -/
theorem c9_counterexample :
    getShift (fun _ _ => 0) (fun q => q) [[1, 2, 3], [1, 2, 3]] [0] 1
      = Except.error AlignErr.splineFailure
    ∧ AlignErr.splineFailure ≠ AlignErr.degenerateInput := by
  constructor
  · norm_num [getShift, splrepModel, unionMask, clip, nanMask, maskKeep, pixelsOf,
      listMean, listVar, List.filter_cons, List.range_succ]
  · decide

/-- C9 amended: whenever fewer than 4 valid points survive the sigma
clipping, get_shift fails, and the failure is the spline library's own
(scipy's splrep requires more points than the spline degree 3); the
alignment code performs no eager validation of its own, whatever the
spline evaluator and square-root numerics are. -/
theorem c9_spline_failure_on_few_points
    (splineEval : List ℚ × List ℚ → ℚ → ℚ) (sqrtQ : ℚ → ℚ)
    (flux : List (List ℚ)) (RVt : List ℚ) (j : ℕ)
    (h : validCount flux j < 4) :
    getShift splineEval sqrtQ flux RVt j = Except.error AlignErr.splineFailure := by
  have hsp : splrepModel (maskKeep (unionMask flux j) (pixelsOf (flux.getD 0 [])))
      (maskKeep (unionMask flux j) (flux.getD j []))
      = Except.error AlignErr.splineFailure := by
    rw [splrepModel, if_pos]
    exact Nat.le_of_lt_succ h
  simp only [getShift, hsp]

/-- Closed instance of c9_spline_failure_on_few_points at the three-point
frames: three valid points survive, and get_shift reports the spline
failure. -/
theorem c9_spline_failure_on_few_points_witness :
    validCount [[1, 2, 3], [1, 2, 3]] 1 < 4
    ∧ getShift (fun _ _ => 0) (fun q => q) [[1, 2, 3], [1, 2, 3]] [0] 1
      = Except.error AlignErr.splineFailure :=
  have h : validCount [[1, 2, 3], [1, 2, 3]] 1 < 4 := by
    norm_num [validCount, unionMask, clip, nanMask, maskKeep, pixelsOf,
      listMean, listVar, List.filter_cons, List.range_succ]
  ⟨h, c9_spline_failure_on_few_points (fun _ _ => 0) (fun q => q)
    [[1, 2, 3], [1, 2, 3]] [0] 1 h⟩

/-! ## Kp-Vsys significance maps (KpV.snr lines 233-238, KpV.noise 240-247,
KpV.baseline 248-255, KpV.snr_at_peak 369-379, KpV.merge_kpvs 584-589) -/

/-- The computed state of a KpV mapper: Kp and Vrest axes, background
threshold, and the built ccf_map of shape nKp × nVrest. -/
structure KpvState (m n : ℕ) where
  kpVec : Fin m → ℚ
  vrestVec : Fin n → ℚ
  bkg : ℚ
  ccf_map : Matrix (Fin m) (Fin n) ℚ

/-- One row's background entries: the columns with np.abs(vrestVec) > bkg. -/
def bgRow {m n : ℕ} (k : KpvState m n) (i : Fin m) : List ℚ :=
  ((List.finRange n).filter (fun j => k.bkg < |k.vrestVec j|)).map (fun j => k.ccf_map i j)

/-- The flattened background region ccf_map[:, np.abs(vrestVec) > bkg]
(row-major, as numpy flattens; the statistics taken of it are
order-insensitive). -/
def bgEntries {m n : ℕ} (k : KpvState m n) : List ℚ :=
  ((List.finRange m).map (bgRow k)).flatten

/-- KpV.noise: np.std of the background region, the square root of its
population variance. -/
noncomputable def kpvNoise {m n : ℕ} (k : KpvState m n) : ℝ :=
  Real.sqrt ((listVar (bgEntries k) : ℚ) : ℝ)

/-- KpV.baseline: np.median of the background region. -/
def kpvBaseline {m n : ℕ} (k : KpvState m n) : ℚ := listMedian (bgEntries k)

/-- KpV.snr: the surface (ccf_map - baseline) / noise, entrywise. -/
noncomputable def kpvSnr {m n : ℕ} (k : KpvState m n) : Matrix (Fin m) (Fin n) ℝ :=
  Matrix.of (fun i j => ((k.ccf_map i j - kpvBaseline k : ℚ) : ℝ) / kpvNoise k)

/-- C2: the SNR surface equals (ccf_map - baseline) / noise with noise the
standard deviation and baseline the median of the background columns
np.abs(vrestVec) > bkg, and two maps agreeing on every background column
(same axes and threshold) get identical noise and baseline: in-range
columns do not influence them. -/
theorem c2_background_determines_stats {m n : ℕ} (k1 k2 : KpvState m n)
    (hv : k1.vrestVec = k2.vrestVec) (hb : k1.bkg = k2.bkg)
    (hagree : ∀ (i : Fin m) (j : Fin n),
      k1.bkg < |k1.vrestVec j| → k1.ccf_map i j = k2.ccf_map i j) :
    kpvNoise k1 = kpvNoise k2 ∧ kpvBaseline k1 = kpvBaseline k2
    ∧ ∀ (i : Fin m) (j : Fin n),
        kpvSnr k1 i j = ((k1.ccf_map i j - kpvBaseline k1 : ℚ) : ℝ) / kpvNoise k1 := by
  have hrow : bgRow k1 = bgRow k2 := by
    funext i
    unfold bgRow
    rw [hv, hb]
    apply List.map_congr_left
    intro j hj
    apply hagree
    rw [hv, hb]
    simpa using (List.mem_filter.mp hj).2
  have hbg : bgEntries k1 = bgEntries k2 := by
    unfold bgEntries
    rw [hrow]
  exact ⟨by unfold kpvNoise; rw [hbg], by unfold kpvBaseline; rw [hbg], fun i j => rfl⟩

/-- A 1 × 3 map with background columns 0 and 2 (threshold 1 against
Vrest axis [-2, 0, 2]). -/
def kpvW1 : KpvState 1 3 :=
  { kpVec := fun _ => 0
    vrestVec := fun j => if j = 0 then -2 else if j = 1 then 0 else 2
    bkg := 1
    ccf_map := fun _ j => if j = 0 then 1 else if j = 1 then 5 else 3 }

/-- Same as kpvW1 except the in-range middle column changed from 5 to 99. -/
def kpvW2 : KpvState 1 3 :=
  { kpVec := fun _ => 0
    vrestVec := fun j => if j = 0 then -2 else if j = 1 then 0 else 2
    bkg := 1
    ccf_map := fun _ j => if j = 0 then 1 else if j = 1 then 99 else 3 }

/-- Closed instance of c2_background_determines_stats: changing only the
in-range column leaves noise and baseline unchanged. -/
theorem c2_background_determines_stats_witness :
    kpvW1.vrestVec = kpvW2.vrestVec ∧ kpvW1.bkg = kpvW2.bkg
    ∧ (∀ (i : Fin 1) (j : Fin 3),
        kpvW1.bkg < |kpvW1.vrestVec j| → kpvW1.ccf_map i j = kpvW2.ccf_map i j)
    ∧ kpvNoise kpvW1 = kpvNoise kpvW2 ∧ kpvBaseline kpvW1 = kpvBaseline kpvW2 :=
  have hag : ∀ (i : Fin 1) (j : Fin 3),
      kpvW1.bkg < |kpvW1.vrestVec j| → kpvW1.ccf_map i j = kpvW2.ccf_map i j := by
    intro i j hj
    fin_cases j
    · norm_num [kpvW1, kpvW2, Fin.ext_iff]
    · exfalso
      norm_num [kpvW1, Fin.ext_iff] at hj
    · norm_num [kpvW1, kpvW2, Fin.ext_iff]
  ⟨rfl, rfl, hag, (c2_background_determines_stats kpvW1 kpvW2 rfl rfl hag).1,
    (c2_background_determines_stats kpvW1 kpvW2 rfl rfl hag).2.1⟩

/-- The baseline-subtracted map k.ccf_map - k.baseline, the summand of
merge_kpvs line 588. -/
def centeredMap {m n : ℕ} (k : KpvState m n) : Matrix (Fin m) (Fin n) ℚ :=
  Matrix.of (fun i j => k.ccf_map i j - kpvBaseline k)

/-- Embedding of KpV.merge_kpvs (lines 584-589): copy the first input and
replace its ccf_map by np.sum of every input's baseline-subtracted map. -/
def mergeKpvs {m n : ℕ} (l : List (KpvState m n)) (h : l ≠ []) : KpvState m n :=
  { l.head h with ccf_map := (l.map centeredMap).sum }

/-- A 3 × 2 map whose single background column (threshold 1/2 against the
Vrest axis [-1, 0]) reads [-3, 0, 1], of median 0. -/
def kpvA : KpvState 3 2 :=
  { kpVec := fun _ => 0
    vrestVec := fun j => if j = 0 then -1 else 0
    bkg := 1/2
    ccf_map := fun i j => if j = 0 then (if i = 0 then -3 else if i = 1 then 0 else 1) else 0 }

/-- Companion of kpvA whose background column reads [0, -1, 1], median 0;
the column of the element-wise sum with kpvA reads [-3, -1, 2], of
median -1. -/
def kpvB : KpvState 3 2 :=
  { kpVec := fun _ => 0
    vrestVec := fun j => if j = 0 then -1 else 0
    bkg := 1/2
    ccf_map := fun i j => if j = 0 then (if i = 0 then 0 else if i = 1 then -1 else 1) else 0 }

/-- The all-zero companion map of kpvA and kpvB. -/
def kpvC : KpvState 3 2 :=
  { kpVec := fun _ => 0
    vrestVec := fun j => if j = 0 then -1 else 0
    bkg := 1/2
    ccf_map := fun _ _ => 0 }

/-- C6 counterexample: merging with a different grouping changes the
result, already in exact arithmetic: merge([merge([A,B]), C]) subtracts the
intermediate map's baseline (-1 here), which merge([A,B,C]) never does, so
entry (0,0) is -2 on one side and -3 on the other.  merge_kpvs is not
associative. -/
theorem c6_counterexample :
    (mergeKpvs [mergeKpvs [kpvA, kpvB] (by simp), kpvC] (by simp)).ccf_map
      ≠ (mergeKpvs [kpvA, kpvB, kpvC] (by simp)).ccf_map := by
  have hfr3 : List.finRange 3 = [0, 1, 2] := by decide
  have hfr2 : List.finRange 2 = [0, 1] := by decide
  intro hEq
  have h00 := congrFun (congrFun hEq 0) 0
  norm_num [mergeKpvs, centeredMap, kpvBaseline, bgEntries, bgRow, hfr3, hfr2,
    List.filter_cons, listMedian, sortQ, insertQ, Fin.ext_iff, kpvA, kpvB, kpvC,
    Matrix.add_apply, Matrix.zero_apply, Matrix.of_apply, List.sum_cons, List.sum_nil] at h00

/-- C6 amended: merge_kpvs of a nonempty list produces the element-wise
sum of every input's baseline-subtracted ccf_map and is commutative —
merging the same maps in any order yields the same ccf_map — but it is not
associative under regrouping (see the counterexample): the intermediate
merged map's own baseline is subtracted again. -/
theorem c6_merge_is_sum_and_order_independent {m n : ℕ}
    (l1 l2 : List (KpvState m n)) (h1 : l1 ≠ []) (h2 : l2 ≠ [])
    (hperm : l1.Perm l2) :
    (mergeKpvs l1 h1).ccf_map = (l1.map centeredMap).sum
    ∧ (mergeKpvs l1 h1).ccf_map = (mergeKpvs l2 h2).ccf_map :=
  ⟨rfl, List.Perm.sum_eq (hperm.map centeredMap)⟩

/-- Closed instance of c6_merge_is_sum_and_order_independent: merging
[A, B] and the reversed [B, A] yields the same ccf_map, the sum of the two
baseline-subtracted inputs. -/
theorem c6_merge_is_sum_and_order_independent_witness :
    ([kpvA, kpvB] : List (KpvState 3 2)) ≠ []
    ∧ ([kpvB, kpvA] : List (KpvState 3 2)) ≠ []
    ∧ ([kpvA, kpvB] : List (KpvState 3 2)).Perm [kpvB, kpvA]
    ∧ (mergeKpvs [kpvA, kpvB] (by simp)).ccf_map = ([kpvA, kpvB].map centeredMap).sum
    ∧ (mergeKpvs [kpvA, kpvB] (by simp)).ccf_map
      = (mergeKpvs [kpvB, kpvA] (by simp)).ccf_map :=
  have hp : ([kpvA, kpvB] : List (KpvState 3 2)).Perm [kpvB, kpvA] :=
    List.Perm.swap kpvB kpvA []
  ⟨by simp, by simp, hp,
    (c6_merge_is_sum_and_order_independent [kpvA, kpvB] [kpvB, kpvA]
      (by simp) (by simp) hp).1,
    (c6_merge_is_sum_and_order_independent [kpvA, kpvB] [kpvB, kpvA]
      (by simp) (by simp) hp).2⟩

/-! ## Default peak search (KpV.snr_at_peak, lines 369-379) -/

/-- Folding min over a list bounds every element (and the seed) below. -/
theorem foldl_min_le {α : Type} [LinearOrder α] :
    ∀ (l : List α) (a : α), ∀ x ∈ a :: l, l.foldl min a ≤ x
  | [], a, x, hx => by
      simp at hx
      simp [hx]
  | b :: t, a, x, hx => by
      rcases List.mem_cons.mp hx with rfl | hx1
      · calc (b :: t).foldl min x = t.foldl min (min x b) := rfl
          _ ≤ min x b := foldl_min_le t (min x b) _ (by simp)
          _ ≤ x := min_le_left _ _
      · rcases List.mem_cons.mp hx1 with rfl | hx2
        · calc (x :: t).foldl min a = t.foldl min (min a x) := rfl
            _ ≤ min a x := foldl_min_le t (min a x) _ (by simp)
            _ ≤ x := min_le_right _ _
        · exact foldl_min_le t (min a b) x (List.mem_cons_of_mem _ hx2)

/-- The min fold returns the seed or one of the elements. -/
theorem foldl_min_mem {α : Type} [LinearOrder α] :
    ∀ (l : List α) (a : α), l.foldl min a ∈ a :: l
  | [], a => by simp
  | b :: t, a => by
      have h1 : (b :: t).foldl min a = t.foldl min (min a b) := rfl
      rw [h1]
      rcases List.mem_cons.mp (foldl_min_mem t (min a b)) with h | h
      · rw [h]
        rcases min_choice a b with hab | hab
        · rw [hab]
          exact List.mem_cons_self _ _
        · rw [hab]
          exact List.mem_cons_of_mem _ (List.mem_cons_self _ _)
      · exact List.mem_cons_of_mem _ (List.mem_cons_of_mem _ h)

/-- Folding max over a list bounds every element (and the seed) above. -/
theorem le_foldl_max {α : Type} [LinearOrder α] :
    ∀ (l : List α) (a : α), ∀ x ∈ a :: l, x ≤ l.foldl max a
  | [], a, x, hx => by
      simp at hx
      simp [hx]
  | b :: t, a, x, hx => by
      rcases List.mem_cons.mp hx with rfl | hx1
      · calc x ≤ max x b := le_max_left _ _
          _ ≤ t.foldl max (max x b) := le_foldl_max t (max x b) _ (by simp)
          _ = (b :: t).foldl max x := rfl
      · rcases List.mem_cons.mp hx1 with rfl | hx2
        · calc x ≤ max a x := le_max_right _ _
            _ ≤ t.foldl max (max a x) := le_foldl_max t (max a x) _ (by simp)
            _ = (x :: t).foldl max a := rfl
        · exact le_foldl_max t (max a b) x (List.mem_cons_of_mem _ hx2)

/-- All entries of a matrix, flattened row-major. -/
def entriesList {α : Type} {m n : ℕ} (S : Matrix (Fin m) (Fin n) α) : List α :=
  ((List.finRange m).map (fun i => (List.finRange n).map (fun j => S i j))).flatten

/-- Every matrix entry occurs in the flattened entry list. -/
theorem mem_entriesList {α : Type} {m n : ℕ} (S : Matrix (Fin m) (Fin n) α)
    (i : Fin m) (j : Fin n) : S i j ∈ entriesList S := by
  unfold entriesList
  rw [List.mem_flatten]
  exact ⟨(List.finRange n).map (fun j => S i j),
    List.mem_map_of_mem _ (List.mem_finRange i),
    List.mem_map_of_mem _ (List.mem_finRange j)⟩

/-- Every member of the flattened entry list is a matrix entry. -/
theorem entriesList_mem {α : Type} {m n : ℕ} (S : Matrix (Fin m) (Fin n) α)
    {x : α} (hx : x ∈ entriesList S) : ∃ i j, x = S i j := by
  unfold entriesList at hx
  rw [List.mem_flatten] at hx
  obtain ⟨row, hrow, hxrow⟩ := hx
  obtain ⟨i, _, rfl⟩ := List.mem_map.mp hrow
  obtain ⟨j, _, rfl⟩ := List.mem_map.mp hxrow
  exact ⟨i, j, rfl⟩

/-- snr.min() of a nonempty surface. -/
def matMin {α : Type} [LinearOrder α] {m n : ℕ}
    (S : Matrix (Fin (m+1)) (Fin (n+1)) α) : α :=
  (entriesList S).foldl min (S 0 0)

/-- snr.max() of a nonempty surface. -/
def matMax {α : Type} [LinearOrder α] {m n : ℕ}
    (S : Matrix (Fin (m+1)) (Fin (n+1)) α) : α :=
  (entriesList S).foldl max (S 0 0)

/-- matMin bounds every entry below. -/
theorem matMin_le {α : Type} [LinearOrder α] {m n : ℕ}
    (S : Matrix (Fin (m+1)) (Fin (n+1)) α) (i : Fin (m+1)) (j : Fin (n+1)) :
    matMin S ≤ S i j :=
  foldl_min_le _ _ _ (List.mem_cons_of_mem _ (mem_entriesList S i j))

/-- matMin is attained at some entry. -/
theorem matMin_attained {α : Type} [LinearOrder α] {m n : ℕ}
    (S : Matrix (Fin (m+1)) (Fin (n+1)) α) : ∃ i j, matMin S = S i j := by
  rcases List.mem_cons.mp (foldl_min_mem (entriesList S) (S 0 0)) with h | h
  · exact ⟨0, 0, h⟩
  · exact entriesList_mem S h

/-- matMax bounds every entry above. -/
theorem le_matMax {α : Type} [LinearOrder α] {m n : ℕ}
    (S : Matrix (Fin (m+1)) (Fin (n+1)) α) (i : Fin (m+1)) (j : Fin (n+1)) :
    S i j ≤ matMax S :=
  le_foldl_max _ _ _ (List.mem_cons_of_mem _ (mem_entriesList S i j))

/-- np.mean of the Kp axis, the reference of the default window
np.abs(kpVec - kpVec.mean()) < 10. -/
def kpMean {m : ℕ} (kpVec : Fin m → ℚ) : ℚ := listMean ((List.finRange m).map kpVec)

/-- First masking step of snr_at_peak (line 373): rows outside the Kp
window np.abs(kpVec - mean) < 10 are overwritten with snr.min(). -/
def clampKp {α : Type} [LinearOrder α] {m n : ℕ} (kpVec : Fin (m+1) → ℚ)
    (S : Matrix (Fin (m+1)) (Fin (n+1)) α) : Matrix (Fin (m+1)) (Fin (n+1)) α :=
  Matrix.of (fun i j => if |kpVec i - kpMean kpVec| < 10 then S i j else matMin S)

/-- Second masking step of snr_at_peak (line 374): columns outside the
Vrest window np.abs(vrestVec) < 5 are overwritten with the (current)
minimum of the already row-masked surface. -/
def clampDv {α : Type} [LinearOrder α] {m n : ℕ} (vrestVec : Fin (n+1) → ℚ)
    (S : Matrix (Fin (m+1)) (Fin (n+1)) α) : Matrix (Fin (m+1)) (Fin (n+1)) α :=
  Matrix.of (fun i j => if |vrestVec j| < 5 then S i j else matMin S)

/-- The surface actually handed to the argmax of the default peak search:
both masking steps applied in the code's order. -/
def clampedSnr {α : Type} [LinearOrder α] {m n : ℕ} (kpVec : Fin (m+1) → ℚ)
    (vrestVec : Fin (n+1) → ℚ) (S : Matrix (Fin (m+1)) (Fin (n+1)) α) :
    Matrix (Fin (m+1)) (Fin (n+1)) α :=
  clampDv vrestVec (clampKp kpVec S)

/-- Overwriting entries with the minimum does not change the minimum: the
second masking step's snr.min() equals the original surface's. -/
theorem matMin_clampKp {α : Type} [LinearOrder α] {m n : ℕ}
    (kpVec : Fin (m+1) → ℚ) (S : Matrix (Fin (m+1)) (Fin (n+1)) α) :
    matMin (clampKp kpVec S) = matMin S := by
  apply le_antisymm
  · obtain ⟨i0, j0, h0⟩ := matMin_attained S
    have hentry : clampKp kpVec S i0 j0 = matMin S := by
      unfold clampKp
      by_cases hc : |kpVec i0 - kpMean kpVec| < 10 <;> simp [hc, ← h0]
    calc matMin (clampKp kpVec S) ≤ clampKp kpVec S i0 j0 := matMin_le _ _ _
      _ = matMin S := hentry
  · obtain ⟨i1, j1, h1⟩ := matMin_attained (clampKp kpVec S)
    rw [h1]
    unfold clampKp
    by_cases hc : |kpVec i1 - kpMean kpVec| < 10 <;> simp [hc]
    exact matMin_le S i1 j1

/-- C3: a position attaining the maximum of the default-windowed (clamped)
surface lies inside the window |Kp - mean(kpVec)| < 10 and |Vrest| < 5
whenever that maximum exceeds the surface minimum, whatever larger values
exist outside the window: out-of-window entries were clamped to the
minimum before the argmax.  Generic in the ordered entry type, so it
applies to the real-valued SNR surface. -/
theorem c3_default_peak_in_window {α : Type} [LinearOrder α] {m n : ℕ}
    (kpVec : Fin (m+1) → ℚ) (vrestVec : Fin (n+1) → ℚ)
    (S : Matrix (Fin (m+1)) (Fin (n+1)) α) (h : Fin (m+1)) (v : Fin (n+1))
    (hmax : clampedSnr kpVec vrestVec S h v = matMax (clampedSnr kpVec vrestVec S))
    (hgt : matMin S < matMax (clampedSnr kpVec vrestVec S)) :
    |kpVec h - kpMean kpVec| < 10 ∧ |vrestVec v| < 5 := by
  by_cases hdv : |vrestVec v| < 5
  · by_cases hkp : |kpVec h - kpMean kpVec| < 10
    · exact ⟨hkp, hdv⟩
    · exfalso
      have hval : clampedSnr kpVec vrestVec S h v = matMin S := by
        unfold clampedSnr clampDv clampKp
        simp [hdv, hkp]
      rw [hval] at hmax
      rw [← hmax] at hgt
      exact lt_irrefl _ hgt
  · exfalso
    have hval : clampedSnr kpVec vrestVec S h v = matMin S := by
      unfold clampedSnr clampDv
      simp [hdv, matMin_clampKp]
    rw [hval] at hmax
    rw [← hmax] at hgt
    exact lt_irrefl _ hgt

/-- A 1 × 3 Kp axis and surface with a spurious out-of-window value 9
exceeding the in-window value 5. -/
def kpVecW : Fin 1 → ℚ := fun _ => 100

/-- The Vrest axis [-10, 0, 10] of the peak-search witness: only the
middle column is inside the window np.abs(vrestVec) < 5. -/
def vrestVecW : Fin 3 → ℚ := fun j => if j = 0 then -10 else if j = 1 then 0 else 10

/-- The witness surface [1, 5, 9]: its largest value 9 sits outside the
window, the in-window value is 5, the minimum is 1. -/
def snrW : Matrix (Fin 1) (Fin 3) ℚ :=
  Matrix.of (fun _ j => if j = 0 then 1 else if j = 1 then 5 else 9)

/-- Closed instance of c3_default_peak_in_window: on the surface [1, 5, 9]
the clamped surface is [1, 5, 1], its maximum 5 is attained at the middle
position, exceeds the minimum 1, and that position is inside the window
even though 9 > 5 exists outside it. -/
theorem c3_default_peak_in_window_witness :
    clampedSnr kpVecW vrestVecW snrW 0 1 = matMax (clampedSnr kpVecW vrestVecW snrW)
    ∧ matMin snrW < matMax (clampedSnr kpVecW vrestVecW snrW)
    ∧ (|kpVecW 0 - kpMean kpVecW| < 10 ∧ |vrestVecW 1| < 5) :=
  have hfr1 : List.finRange 1 = [0] := by decide
  have hfr3 : List.finRange 3 = [0, 1, 2] := by decide
  have pf1 : clampedSnr kpVecW vrestVecW snrW 0 1
      = matMax (clampedSnr kpVecW vrestVecW snrW) := by
    norm_num [clampedSnr, clampDv, clampKp, matMax, matMin, entriesList, kpMean,
      listMean, kpVecW, vrestVecW, snrW, hfr1, hfr3, Fin.ext_iff, min_def, max_def]
  have pf2 : matMin snrW < matMax (clampedSnr kpVecW vrestVecW snrW) := by
    norm_num [clampedSnr, clampDv, clampKp, matMax, matMin, entriesList, kpMean,
      listMean, kpVecW, vrestVecW, snrW, hfr1, hfr3, Fin.ext_iff, min_def, max_def]
  ⟨pf1, pf2, c3_default_peak_in_window kpVecW vrestVecW snrW 0 1 pf1 pf2⟩

/-! ## KpV.run (lines 257-278) and the ephemeris Kp mutation -/

/-- Modelled from the spec: the PlanetEphemeris collaborator lives in the
missing datacube/planet module.  Spec 6: "given a trial Kp (scalar) and a
reference frame label, returns per-frame radial velocity (array, km/s)"
and "supports mask_eclipse() -> boolean array (True = exclude)".  The
per-frame radial velocity is an arbitrary function rvAt of the current Kp
attribute; the eclipse mask is a fixed boolean array. -/
structure Planet where
  Kp : ℚ
  rvAt : ℚ → List ℚ
  eclMask : List Bool

/-- planet.RV, the per-frame radial velocity at the ephemeris's current
Kp attribute. -/
def Planet.RV (p : Planet) : List ℚ := p.rvAt p.Kp

/-- The KpV state threaded through run: the deep-copied ephemeris of
KpV.__init__ line 213, the CCF trial-velocity axis and per-frame map, the
Kp and Vrest grids and the output ccf_map. -/
structure KpvFull where
  planet : Planet
  ccfRv : List ℚ
  ccfFlux : List (List ℚ)
  kpVec : List ℚ
  vrestVec : List ℚ
  ccf_map : List (List ℚ)

/-- Frames included in the stack, np.where(ecl == False)[0] (line 271):
every frame when ignoring eclipses is off (ecl = False * ones, line 262),
the non-masked frames otherwise (line 264). -/
def includedFrames (p : Planet) (ignoreEclipse : Bool) : List ℕ :=
  let ecl := if ignoreEclipse then p.eclMask else List.replicate p.RV.length false
  (List.range ecl.length).filter (fun i => !(ecl.getD i true))

/-- One output row of run (lines 268-273): with the ephemeris Kp set to
the trial value, every included frame's CCF row, linearly interpolated at
vrestVec + pRV[i], is accumulated by summation into the row. -/
def runRow (k : KpvFull) (ignoreEclipse : Bool) (kp : ℚ) : List ℚ :=
  (includedFrames k.planet ignoreEclipse).foldr
    (fun i acc => List.zipWith (fun a b => a + b)
      (k.vrestVec.map (fun v =>
        linInterp k.ccfRv (k.ccfFlux.getD i [])
          (v + (({ k.planet with Kp := kp } : Planet)).RV.getD i 0)))
      acc)
    (List.replicate k.vrestVec.length 0)

/-- Embedding of KpV.run: builds the map row by row while setting the
ephemeris's Kp to each trial value in turn (line 269); the returned state
keeps the last mutation, since the loop never restores Kp. -/
def KpvFull.run (k : KpvFull) (ignoreEclipse : Bool) : KpvFull :=
  { k with
    ccf_map := k.kpVec.map (runRow k ignoreEclipse)
    planet := k.kpVec.foldl (fun p kp => { p with Kp := kp }) k.planet }

/-- Repeatedly overwriting the Kp attribute leaves the last written value. -/
theorem foldl_setKp : ∀ (l : List ℚ) (p : Planet) (h : l ≠ []),
    (l.foldl (fun q kp => { q with Kp := kp }) p).Kp = l.getLast h
  | [x], _, _ => by simp [List.getLast]
  | x :: y :: t, p, _ => by
      have hstep : (x :: y :: t).foldl (fun q kp => { q with Kp := kp }) p
          = (y :: t).foldl (fun q kp => { q with Kp := kp }) { p with Kp := x } := rfl
      rw [hstep, foldl_setKp (y :: t) _ (by simp)]
      exact (List.getLast_cons (by simp)).symm

/-- Overwriting the Kp attribute touches no other ephemeris field. -/
theorem foldl_setKp_fields : ∀ (l : List ℚ) (p : Planet),
    (l.foldl (fun q kp => { q with Kp := kp }) p).rvAt = p.rvAt
    ∧ (l.foldl (fun q kp => { q with Kp := kp }) p).eclMask = p.eclMask
  | [], _ => ⟨rfl, rfl⟩
  | x :: t, p => foldl_setKp_fields t { p with Kp := x }

/-- A tiny runnable KpV state: ephemeris at Kp = 0, one frame at rest,
trial Kp grid [5, 7]. -/
def kpv8 : KpvFull :=
  { planet := { Kp := 0, rvAt := fun _ => [0], eclMask := [false] }
    ccfRv := [-1, 1]
    ccfFlux := [[0, 0]]
    kpVec := [5, 7]
    vrestVec := [0]
    ccf_map := [] }

/-- C8 counterexample: after run returns, the ephemeris attached to the
KpV object still carries the Kp value 7 set during the last iteration —
different from the pre-run Kp 0 — so a mid-computation Kp mutation does
remain in effect, observably, once run returns. -/
theorem c8_counterexample :
    (kpv8.run true).planet.Kp ≠ kpv8.planet.Kp
    ∧ (kpv8.run true).planet.Kp = kpv8.kpVec.getD 1 0 := by
  constructor <;> norm_num [KpvFull.run, kpv8, List.foldl]

/-- C8 amended: run leaves the Kp of the KpV's own ephemeris copy at the
final trial value kpVec[-1] — the per-iteration mutation is persisted and
observable on that copy — while every other ephemeris field is untouched.
(The caller's original ephemeris object is unaffected: KpV.__init__
deep-copies it, which is why this state holds of the copy.) -/
theorem c8_run_kp_persists (k : KpvFull) (ie : Bool) (h : k.kpVec ≠ []) :
    (k.run ie).planet.Kp = k.kpVec.getLast h
    ∧ (k.run ie).planet.rvAt = k.planet.rvAt
    ∧ (k.run ie).planet.eclMask = k.planet.eclMask :=
  ⟨foldl_setKp k.kpVec k.planet h, (foldl_setKp_fields k.kpVec k.planet).1,
    (foldl_setKp_fields k.kpVec k.planet).2⟩

/-- Closed instance of c8_run_kp_persists on the tiny state: the final
ephemeris Kp is the last trial value 7 and the other fields are kept. -/
theorem c8_run_kp_persists_witness :
    kpv8.kpVec ≠ []
    ∧ (kpv8.run true).planet.Kp = kpv8.kpVec.getLast (by simp [kpv8])
    ∧ (kpv8.run true).planet.rvAt = kpv8.planet.rvAt :=
  ⟨by simp [kpv8], (c8_run_kp_persists kpv8 true (by simp [kpv8])).1,
    (c8_run_kp_persists kpv8 true (by simp [kpv8])).2.1⟩

end RedCross
